import Mathlib

/-!
Verification development for the SMSTaggingOfficer labeling pipeline
(`src-tauri/src/model/schema.rs`, `rules/mod.rs`, `model/fusion.rs`,
`model/batch.rs`).

Modelling conventions:
* Rust `f64` is embedded as `RFloat`: either a finite exact rational or one
  of the non-finite IEEE values (NaN, ±∞).  Arithmetic on finite values is
  exact rational arithmetic (an idealization of IEEE rounding); comparison
  and `is_finite` / `min` follow IEEE semantics (comparisons with NaN are
  false, `f64::min` returns the other operand when one side is NaN).
* `serde_json::Value` is embedded as `JVal`, restricted to the constructors
  the pipeline actually stores in `signals` (strings and booleans).
* `HashMap<String, Value>::insert` is embedded as replace-or-append on an
  association list; the pipeline never depends on hash order.
* Strings are processed as their `List Char` code points; the regular
  expressions of `rules/mod.rs` are embedded as dedicated matchers with the
  leftmost-first semantics of the `regex` crate.  The Unicode classes are
  restricted to the character ranges occurring in the corpus: `\d` is
  ASCII `0-9`, `\s` is ASCII whitespace, and word characters (`\b`) are
  ASCII alphanumerics, `_`, and CJK Unified Ideographs.
-/

/-- Embedding of the subset of `serde_json::Value` stored in `signals`. -/
inductive JVal where
  | str (s : String)
  | bool (b : Bool)
deriving DecidableEq, Repr

/-- `HashMap::insert`: replace the value of an existing key, else append. -/
def insertSig (m : List (String × JVal)) (k : String) (v : JVal) :
    List (String × JVal) :=
  match m with
  | [] => [(k, v)]
  | (k', v') :: rest =>
      if k' = k then (k, v) :: rest else (k', v') :: insertSig rest k v

/-- Embedding of Rust `f64`: an exact rational for finite values plus the
three non-finite IEEE values. -/
inductive RFloat where
  | finite (q : ℚ)
  | nan
  | posInf
  | negInf
deriving DecidableEq, Repr

namespace RFloat

/-- `f64::is_finite`. -/
def isFinite : RFloat → Bool
  | finite _ => true
  | _ => false

/-- IEEE `<` on `f64`: any comparison with NaN is false. -/
def flt : RFloat → RFloat → Bool
  | nan, _ => false
  | _, nan => false
  | negInf, negInf => false
  | negInf, _ => true
  | _, negInf => false
  | finite a, finite b => a < b
  | finite _, posInf => true
  | posInf, _ => false

/-- IEEE `<=` on `f64`: any comparison with NaN is false. -/
def fle : RFloat → RFloat → Bool
  | nan, _ => false
  | _, nan => false
  | negInf, _ => true
  | _, negInf => false
  | finite a, finite b => a ≤ b
  | finite _, posInf => true
  | posInf, posInf => true
  | posInf, finite _ => false

/-- `f64` multiplication (exact on finite operands). -/
def fmul : RFloat → RFloat → RFloat
  | nan, _ => nan
  | _, nan => nan
  | finite a, finite b => finite (a * b)
  | posInf, posInf => posInf
  | posInf, negInf => negInf
  | negInf, posInf => negInf
  | negInf, negInf => posInf
  | posInf, finite b => if b = 0 then nan else if 0 < b then posInf else negInf
  | finite a, posInf => if a = 0 then nan else if 0 < a then posInf else negInf
  | negInf, finite b => if b = 0 then nan else if 0 < b then negInf else posInf
  | finite a, negInf => if a = 0 then nan else if 0 < a then negInf else posInf

/-- Rust `f64::min`: returns the other operand when one side is NaN. -/
def fmin (a b : RFloat) : RFloat :=
  if a = nan then b else if b = nan then a else if fle a b then a else b

end RFloat

/-! ## `model/schema.rs` -/

def SCHEMA_VERSION : String := "schema_v1"

def RULES_VERSION : String := "rules_v1"

/-- `INDUSTRIES`: the closed industry enumeration. -/
def INDUSTRIES : List String := ["金融", "通用", "政务", "渠道", "互联网", "其他"]

/-- `SMS_TYPES`: the closed message-type enumeration. -/
def SMS_TYPES : List String :=
  ["验证码", "交易提醒", "账单催缴", "保险续保", "物流取件",
   "会员账号变更", "政务通知", "风险提示", "营销推广", "其他"]

/-- `Entities` (`schema.rs`): all-optional extracted entities.  The
`f64` amounts are produced only by `parse_amount`, which never yields a
non-finite value, so they are embedded directly as rationals. -/
structure Entities where
  brand : Option String
  verification_code : Option String
  amount : Option ℚ
  balance : Option ℚ
  account_suffix : Option String
  time_text : Option String
  url : Option String
  phone_in_text : Option String
deriving DecidableEq, Repr

/-- `Entities::default()`. -/
def Entities.empty : Entities :=
  ⟨none, none, none, none, none, none, none, none⟩

/-- `LabelOutput` (`schema.rs`). -/
structure LabelOutput where
  industry : String
  sms_type : String
  entities : Entities
  confidence : RFloat
  needs_review : Bool
  reasons : List String
  signals : List (String × JVal)
  rules_version : String
  model_version : String
  schema_version : String
deriving DecidableEq, Repr

/-- `normalize`, first `if` block (`schema.rs:54-58`): coerce an invalid
industry. -/
def fixIndustry (l : LabelOutput) : LabelOutput :=
  if INDUSTRIES.contains l.industry then l else
    { l with industry := "其他", needs_review := true,
             reasons := l.reasons ++ ["normalize:invalid_industry"] }

/-- `normalize`, second `if` block (`schema.rs:59-63`): coerce an invalid
type. -/
def fixType (l : LabelOutput) : LabelOutput :=
  if SMS_TYPES.contains l.sms_type then l else
    { l with sms_type := "其他", needs_review := true,
             reasons := l.reasons ++ ["normalize:invalid_type"] }

/-- `normalize`, third `if` block (`schema.rs:65-69`): replace a non-finite
confidence by 0.5. -/
def fixConfFinite (l : LabelOutput) : LabelOutput :=
  if l.confidence.isFinite then l else
    { l with confidence := RFloat.finite (1/2), needs_review := true,
             reasons := l.reasons ++ ["normalize:invalid_confidence"] }

/-- `normalize` (`schema.rs:70-72`): clamp a negative confidence to 0. -/
def clampLow (l : LabelOutput) : LabelOutput :=
  if RFloat.flt l.confidence (RFloat.finite 0) then
    { l with confidence := RFloat.finite 0 } else l

/-- `normalize` (`schema.rs:73-75`): clamp a confidence above 1 to 1. -/
def clampHigh (l : LabelOutput) : LabelOutput :=
  if RFloat.flt (RFloat.finite 1) l.confidence then
    { l with confidence := RFloat.finite 1 } else l

/-- `normalize` (`schema.rs:77-79`): default an empty rules version. -/
def fixRulesVersion (l : LabelOutput) : LabelOutput :=
  if l.rules_version = "" then { l with rules_version := RULES_VERSION } else l

/-- `normalize` (`schema.rs:80-82`): default an empty schema version. -/
def fixSchemaVersion (l : LabelOutput) : LabelOutput :=
  if l.schema_version = "" then { l with schema_version := SCHEMA_VERSION } else l

/-- `normalize` (`schema.rs:83-85`): default an empty reasons list. -/
def fixReasons (l : LabelOutput) : LabelOutput :=
  if l.reasons = [] then { l with reasons := l.reasons ++ ["no_reason"] } else l

/-- The eight `if` blocks of `normalize` composed in source order. -/
def normChain (l : LabelOutput) : LabelOutput :=
  fixReasons (fixSchemaVersion (fixRulesVersion (clampHigh (clampLow
    (fixConfFinite (fixType (fixIndustry l)))))))

/-- `LabelOutput::normalize` (`schema.rs:53-88`): the `if` blocks in source
order, then the unconditional schema-version overwrite (`schema.rs:86`). -/
def LabelOutput.normalize (l : LabelOutput) : LabelOutput :=
  { normChain l with schema_version := SCHEMA_VERSION }

/-- `LabelOutput::error_fallback` (`schema.rs:90-107`). -/
def LabelOutput.error_fallback (entities : Entities)
    (signals : List (String × JVal)) (err : String) : LabelOutput where
  industry := "其他"
  sms_type := "其他"
  entities := entities
  confidence := RFloat.finite (1/4)
  needs_review := true
  reasons := ["model_error:" ++ err]
  signals := signals
  rules_version := RULES_VERSION
  model_version := "error"
  schema_version := SCHEMA_VERSION

/-! ## `model/fusion.rs` -/

/-- `FusionInput` (`fusion.rs`). -/
structure FusionInput where
  rule : Option LabelOutput
  model : Option LabelOutput
  rule_strong_hit : Bool

/-- `fuse` (`fusion.rs:10-51`). -/
def fuse (input : FusionInput) : LabelOutput :=
  match input.rule, input.model with
  | some rule, none => rule
  | none, some model => model
  | some rule, some model =>
      let out :=
        if input.rule_strong_hit then rule
        else if RFloat.fle rule.confidence model.confidence then model
        else rule
      let conflict :=
        (rule.industry != model.industry) || (rule.sms_type != model.sms_type)
      if conflict then
        { out with needs_review := true,
                   confidence := RFloat.fmin
                     (RFloat.fmul out.confidence (RFloat.finite (85/100)))
                     (RFloat.finite (85/100)),
                   reasons := out.reasons ++ ["fusion_conflict"] }
      else out
  | none, none =>
      { industry := "其他", sms_type := "其他", entities := Entities.empty,
        confidence := RFloat.finite (2/5), needs_review := true,
        reasons := ["no_rule_no_model"], signals := [],
        rules_version := RULES_VERSION, model_version := "n/a",
        schema_version := SCHEMA_VERSION }

/-! ## Helper lemmas about `RFloat` and `normalize` -/

theorem RFloat.fmul_finite (a b : ℚ) :
    RFloat.fmul (RFloat.finite a) (RFloat.finite b) = RFloat.finite (a * b) := rfl

theorem RFloat.fle_finite (a b : ℚ) :
    RFloat.fle (RFloat.finite a) (RFloat.finite b) = decide (a ≤ b) := rfl

theorem RFloat.flt_finite (a b : ℚ) :
    RFloat.flt (RFloat.finite a) (RFloat.finite b) = decide (a < b) := rfl

theorem RFloat.fmin_finite (a b : ℚ) :
    RFloat.fmin (RFloat.finite a) (RFloat.finite b) = RFloat.finite (min a b) := by
  by_cases h : a ≤ b <;> simp [RFloat.fmin, RFloat.fle_finite, min_def, h]

theorem fixType_industry (l : LabelOutput) : (fixType l).industry = l.industry := by
  unfold fixType; split <;> rfl

theorem fixConfFinite_industry (l : LabelOutput) :
    (fixConfFinite l).industry = l.industry := by
  unfold fixConfFinite; split <;> rfl

theorem fixConfFinite_type (l : LabelOutput) :
    (fixConfFinite l).sms_type = l.sms_type := by
  unfold fixConfFinite; split <;> rfl

theorem clampLow_frame (l : LabelOutput) :
    (clampLow l).industry = l.industry ∧ (clampLow l).sms_type = l.sms_type ∧
    (clampLow l).needs_review = l.needs_review ∧ (clampLow l).reasons = l.reasons ∧
    (clampLow l).rules_version = l.rules_version := by
  unfold clampLow; split <;> exact ⟨rfl, rfl, rfl, rfl, rfl⟩

theorem clampHigh_frame (l : LabelOutput) :
    (clampHigh l).industry = l.industry ∧ (clampHigh l).sms_type = l.sms_type ∧
    (clampHigh l).needs_review = l.needs_review ∧ (clampHigh l).reasons = l.reasons ∧
    (clampHigh l).rules_version = l.rules_version := by
  unfold clampHigh; split <;> exact ⟨rfl, rfl, rfl, rfl, rfl⟩

theorem fixRulesVersion_frame (l : LabelOutput) :
    (fixRulesVersion l).industry = l.industry ∧
    (fixRulesVersion l).sms_type = l.sms_type ∧
    (fixRulesVersion l).confidence = l.confidence ∧
    (fixRulesVersion l).needs_review = l.needs_review ∧
    (fixRulesVersion l).reasons = l.reasons := by
  unfold fixRulesVersion; split <;> exact ⟨rfl, rfl, rfl, rfl, rfl⟩

theorem fixSchemaVersion_frame (l : LabelOutput) :
    (fixSchemaVersion l).industry = l.industry ∧
    (fixSchemaVersion l).sms_type = l.sms_type ∧
    (fixSchemaVersion l).confidence = l.confidence ∧
    (fixSchemaVersion l).needs_review = l.needs_review ∧
    (fixSchemaVersion l).reasons = l.reasons ∧
    (fixSchemaVersion l).rules_version = l.rules_version := by
  unfold fixSchemaVersion; split <;> exact ⟨rfl, rfl, rfl, rfl, rfl, rfl⟩

theorem fixReasons_frame (l : LabelOutput) :
    (fixReasons l).industry = l.industry ∧ (fixReasons l).sms_type = l.sms_type ∧
    (fixReasons l).confidence = l.confidence ∧
    (fixReasons l).needs_review = l.needs_review ∧
    (fixReasons l).rules_version = l.rules_version := by
  unfold fixReasons; split <;> exact ⟨rfl, rfl, rfl, rfl, rfl⟩

theorem fixIndustry_establishes (l : LabelOutput) :
    INDUSTRIES.contains (fixIndustry l).industry = true := by
  unfold fixIndustry
  split
  · assumption
  · rfl

theorem fixType_establishes (l : LabelOutput) :
    SMS_TYPES.contains (fixType l).sms_type = true := by
  unfold fixType
  split
  · assumption
  · rfl

theorem fixConfFinite_establishes (l : LabelOutput) :
    ∃ q : ℚ, (fixConfFinite l).confidence = RFloat.finite q := by
  unfold fixConfFinite
  split
  · rcases hc : l.confidence with q | _ | _ | _ <;> simp_all [RFloat.isFinite]
  · exact ⟨1/2, rfl⟩

theorem clamp_establishes (l : LabelOutput) (q : ℚ)
    (h : l.confidence = RFloat.finite q) :
    ∃ q' : ℚ, (clampHigh (clampLow l)).confidence = RFloat.finite q' ∧
      0 ≤ q' ∧ q' ≤ 1 := by
  unfold clampLow clampHigh
  by_cases h0 : q < 0
  · simp [h, RFloat.flt_finite, h0, show ¬ ((1:ℚ) < 0) by norm_num]
  · by_cases h1 : 1 < q
    · simp [h, RFloat.flt_finite, h0, h1]
    · refine ⟨q, ?_, by linarith, by linarith⟩
      simp [h, RFloat.flt_finite, h0, h1]

theorem fixRulesVersion_establishes (l : LabelOutput) :
    (fixRulesVersion l).rules_version ≠ "" := by
  unfold fixRulesVersion
  split
  · show RULES_VERSION ≠ ""
    decide
  · assumption

theorem fixReasons_establishes (l : LabelOutput) : (fixReasons l).reasons ≠ [] := by
  unfold fixReasons
  split
  · simp_all
  · simp_all

theorem normalize_proj_industry (l : LabelOutput) :
    (LabelOutput.normalize l).industry = (normChain l).industry := by
  simp only [LabelOutput.normalize]

theorem normalize_proj_type (l : LabelOutput) :
    (LabelOutput.normalize l).sms_type = (normChain l).sms_type := by
  simp only [LabelOutput.normalize]

theorem normalize_proj_confidence (l : LabelOutput) :
    (LabelOutput.normalize l).confidence = (normChain l).confidence := by
  simp only [LabelOutput.normalize]

theorem normalize_proj_needs_review (l : LabelOutput) :
    (LabelOutput.normalize l).needs_review = (normChain l).needs_review := by
  simp only [LabelOutput.normalize]

theorem normalize_proj_reasons (l : LabelOutput) :
    (LabelOutput.normalize l).reasons = (normChain l).reasons := by
  simp only [LabelOutput.normalize]

theorem normalize_proj_rules (l : LabelOutput) :
    (LabelOutput.normalize l).rules_version = (normChain l).rules_version := by
  simp only [LabelOutput.normalize]

/-- The industry field after `normalize` is in the closed enumeration. -/
theorem normalize_industry_mem (l : LabelOutput) :
    INDUSTRIES.contains (LabelOutput.normalize l).industry = true := by
  rw [normalize_proj_industry]
  unfold normChain
  rw [(fixReasons_frame _).1, (fixSchemaVersion_frame _).1,
      (fixRulesVersion_frame _).1, (clampHigh_frame _).1, (clampLow_frame _).1,
      fixConfFinite_industry, fixType_industry]
  exact fixIndustry_establishes l

/-- The type field after `normalize` is in the closed enumeration. -/
theorem normalize_type_mem (l : LabelOutput) :
    SMS_TYPES.contains (LabelOutput.normalize l).sms_type = true := by
  rw [normalize_proj_type]
  unfold normChain
  rw [(fixReasons_frame _).2.1, (fixSchemaVersion_frame _).2.1,
      (fixRulesVersion_frame _).2.1, (clampHigh_frame _).2.1,
      (clampLow_frame _).2.1, fixConfFinite_type]
  exact fixType_establishes _

/-- The confidence after `normalize` is a finite value in `[0,1]`. -/
theorem normalize_confidence_bounds (l : LabelOutput) :
    ∃ q : ℚ, (LabelOutput.normalize l).confidence = RFloat.finite q ∧
      0 ≤ q ∧ q ≤ 1 := by
  simp only [normalize_proj_confidence]
  unfold normChain
  rw [(fixReasons_frame _).2.2.1, (fixSchemaVersion_frame _).2.2.1,
      (fixRulesVersion_frame _).2.2.1]
  obtain ⟨q, hq⟩ := fixConfFinite_establishes (fixType (fixIndustry l))
  exact clamp_establishes _ q hq

/-- The reasons list after `normalize` is non-empty. -/
theorem normalize_reasons_ne (l : LabelOutput) :
    (LabelOutput.normalize l).reasons ≠ [] := by
  rw [normalize_proj_reasons]
  unfold normChain
  exact fixReasons_establishes _

/-- `normalize` always overwrites the schema version. -/
theorem normalize_schema (l : LabelOutput) :
    (LabelOutput.normalize l).schema_version = SCHEMA_VERSION := by
  simp only [LabelOutput.normalize]

/-- The rules version after `normalize` is never empty. -/
theorem normalize_rules_ne (l : LabelOutput) :
    (LabelOutput.normalize l).rules_version ≠ "" := by
  rw [normalize_proj_rules]
  unfold normChain
  rw [(fixReasons_frame _).2.2.2.2, (fixSchemaVersion_frame _).2.2.2.2.2]
  exact fixRulesVersion_establishes _

/-! ## Identity behaviour of the `normalize` steps on conforming labels -/

theorem fixIndustry_id (l : LabelOutput)
    (h : INDUSTRIES.contains l.industry = true) : fixIndustry l = l := by
  unfold fixIndustry; simp_all

theorem fixType_id (l : LabelOutput)
    (h : SMS_TYPES.contains l.sms_type = true) : fixType l = l := by
  unfold fixType; simp_all

theorem fixConfFinite_id (l : LabelOutput) (q : ℚ)
    (h : l.confidence = RFloat.finite q) : fixConfFinite l = l := by
  unfold fixConfFinite; simp [h, RFloat.isFinite]

theorem clampLow_id (l : LabelOutput) (q : ℚ)
    (h : l.confidence = RFloat.finite q) (h0 : 0 ≤ q) : clampLow l = l := by
  unfold clampLow; simp [h, RFloat.flt_finite, not_lt.mpr h0]

theorem clampHigh_id (l : LabelOutput) (q : ℚ)
    (h : l.confidence = RFloat.finite q) (h1 : q ≤ 1) : clampHigh l = l := by
  unfold clampHigh; simp [h, RFloat.flt_finite, not_lt.mpr h1]

theorem fixRulesVersion_id (l : LabelOutput)
    (h : l.rules_version ≠ "") : fixRulesVersion l = l := by
  unfold fixRulesVersion; simp [h]

theorem fixSchemaVersion_id (l : LabelOutput)
    (h : l.schema_version ≠ "") : fixSchemaVersion l = l := by
  unfold fixSchemaVersion; simp [h]

theorem fixReasons_id (l : LabelOutput)
    (h : l.reasons ≠ []) : fixReasons l = l := by
  unfold fixReasons; simp [h]

theorem setSchema_id (l : LabelOutput)
    (h : l.schema_version = SCHEMA_VERSION) :
    ({ l with schema_version := SCHEMA_VERSION } : LabelOutput) = l := by
  cases l; simp_all

/-- Claim C3: for every candidate label, `normalize` returns a label whose
industry is one of the 6 industries, whose type is one of the 10 types,
whose confidence is finite in `[0,1]`, whose reasons list is non-empty, and
whose schema version is the current constant `"schema_v1"`. -/
theorem claim_C3_normalize_invariants (l : LabelOutput) :
    INDUSTRIES.length = 6 ∧ SMS_TYPES.length = 10 ∧
    INDUSTRIES.contains (LabelOutput.normalize l).industry = true ∧
    SMS_TYPES.contains (LabelOutput.normalize l).sms_type = true ∧
    (∃ q : ℚ, (LabelOutput.normalize l).confidence = RFloat.finite q ∧
      0 ≤ q ∧ q ≤ 1) ∧
    (LabelOutput.normalize l).reasons ≠ [] ∧
    (LabelOutput.normalize l).schema_version = SCHEMA_VERSION ∧
    SCHEMA_VERSION = "schema_v1" :=
  ⟨by decide, by decide, normalize_industry_mem l, normalize_type_mem l,
   normalize_confidence_bounds l, normalize_reasons_ne l, normalize_schema l,
   rfl⟩

/-- Claim C8: `normalize` is idempotent. -/
theorem claim_C8_normalize_idempotent (l : LabelOutput) :
    LabelOutput.normalize (LabelOutput.normalize l) = LabelOutput.normalize l := by
  have hi := normalize_industry_mem l
  have ht := normalize_type_mem l
  obtain ⟨q, hq, h0, h1⟩ := normalize_confidence_bounds l
  have hr := normalize_reasons_ne l
  have hrv := normalize_rules_ne l
  have hs := normalize_schema l
  generalize hm : LabelOutput.normalize l = m at *
  show { normChain m with schema_version := SCHEMA_VERSION } = m
  unfold normChain
  rw [fixIndustry_id m hi, fixType_id m ht, fixConfFinite_id m q hq,
      clampLow_id m q hq h0, clampHigh_id m q hq h1, fixRulesVersion_id m hrv,
      fixSchemaVersion_id m (by rw [hs]; decide), fixReasons_id m hr]
  exact setSchema_id m hs

theorem fixIndustry_conf (l : LabelOutput) :
    (fixIndustry l).confidence = l.confidence := by
  unfold fixIndustry; split <;> rfl

theorem fixType_conf (l : LabelOutput) :
    (fixType l).confidence = l.confidence := by
  unfold fixType; split <;> rfl

theorem clamp_conf_neg (l : LabelOutput) (q : ℚ)
    (hc : l.confidence = RFloat.finite q) (h : q < 0) :
    (clampHigh (clampLow l)).confidence = RFloat.finite 0 := by
  unfold clampLow clampHigh
  simp [hc, RFloat.flt_finite, h, show ¬ ((1:ℚ) < 0) by norm_num]

theorem clamp_conf_hi (l : LabelOutput) (q : ℚ)
    (hc : l.confidence = RFloat.finite q) (h : 1 < q) :
    (clampHigh (clampLow l)).confidence = RFloat.finite 1 := by
  unfold clampLow clampHigh
  simp [hc, RFloat.flt_finite, h, not_lt.mpr (by linarith : (0:ℚ) ≤ q)]

/-- Claim C9: for a label with a finite confidence, `normalize` clamps an
out-of-range confidence to 0 or 1 without setting `needs_review` and
without appending any reason; `needs_review` and `reasons` change only
through the invalid-industry, invalid-type, non-finite-confidence or
empty-reasons branches. -/
theorem claim_C9_normalize_frame (l : LabelOutput) (q : ℚ)
    (hc : l.confidence = RFloat.finite q) :
    (q < 0 → (LabelOutput.normalize l).confidence = RFloat.finite 0) ∧
    (1 < q → (LabelOutput.normalize l).confidence = RFloat.finite 1) ∧
    (INDUSTRIES.contains l.industry = true →
      SMS_TYPES.contains l.sms_type = true → l.reasons ≠ [] →
      (LabelOutput.normalize l).needs_review = l.needs_review ∧
      (LabelOutput.normalize l).reasons = l.reasons) := by
  have hcc : (fixType (fixIndustry l)).confidence = RFloat.finite q := by
    rw [fixType_conf, fixIndustry_conf, hc]
  have hfix : fixConfFinite (fixType (fixIndustry l)) = fixType (fixIndustry l) :=
    fixConfFinite_id _ q hcc
  refine ⟨?_, ?_, ?_⟩
  · intro hlt
    rw [normalize_proj_confidence]
    unfold normChain
    rw [(fixReasons_frame _).2.2.1, (fixSchemaVersion_frame _).2.2.1,
        (fixRulesVersion_frame _).2.2.1, hfix]
    exact clamp_conf_neg _ q hcc hlt
  · intro hgt
    rw [normalize_proj_confidence]
    unfold normChain
    rw [(fixReasons_frame _).2.2.1, (fixSchemaVersion_frame _).2.2.1,
        (fixRulesVersion_frame _).2.2.1, hfix]
    exact clamp_conf_hi _ q hcc hgt
  · intro hi ht hr
    rw [normalize_proj_needs_review, normalize_proj_reasons]
    unfold normChain
    rw [fixIndustry_id l hi, fixType_id l ht, fixConfFinite_id l q hc]
    have hreas : (fixSchemaVersion (fixRulesVersion (clampHigh
        (clampLow l)))).reasons = l.reasons := by
      rw [(fixSchemaVersion_frame _).2.2.2.2.1,
          (fixRulesVersion_frame _).2.2.2.2, (clampHigh_frame _).2.2.2.1,
          (clampLow_frame _).2.2.2.1]
    rw [fixReasons_id _ (by rw [hreas]; exact hr)]
    refine ⟨?_, hreas⟩
    rw [(fixSchemaVersion_frame _).2.2.2.1, (fixRulesVersion_frame _).2.2.2.1,
        (clampHigh_frame _).2.2.1, (clampLow_frame _).2.2.1]

/-- The rule label of fusion scenario 5 of the spec. -/
def c4RuleLabel : LabelOutput :=
  { industry := "金融", sms_type := "交易提醒", entities := Entities.empty,
    confidence := RFloat.finite (7/10), needs_review := false,
    reasons := ["rule: financial_transaction"], signals := [],
    rules_version := RULES_VERSION, model_version := "n/a",
    schema_version := SCHEMA_VERSION }

/-- The model label of fusion scenario 5 of the spec. -/
def c4ModelLabel : LabelOutput :=
  { industry := "政务", sms_type := "政务通知", entities := Entities.empty,
    confidence := RFloat.finite (8/10), needs_review := false,
    reasons := ["model"], signals := [], rules_version := RULES_VERSION,
    model_version := "mock", schema_version := SCHEMA_VERSION }

/-- Evaluation of `fuse` on the literal scenario-5 labels. -/
theorem c4_concrete :
    fuse ⟨some c4RuleLabel, some c4ModelLabel, false⟩ =
      { c4ModelLabel with
        needs_review := true
        confidence := RFloat.finite (68/100)
        reasons := c4ModelLabel.reasons ++ ["fusion_conflict"] } := by
  simp only [fuse, c4RuleLabel, c4ModelLabel, RFloat.fle_finite,
    RFloat.fmul_finite, RFloat.fmin_finite]
  norm_num [show ¬("金融":String) = "政务" by decide,
            show ¬("交易提醒":String) = "政务通知" by decide]
  rw [RFloat.fmul_finite, RFloat.fmin_finite]
  norm_num [min_def]

/-- Claim C4: with both labels present and no strong rule hit, `fuse` picks
the label with the higher confidence (the model label on ties); on an
industry or type disagreement it sets `needs_review`, rescales the
confidence to `min(chosen * 0.85, 0.85)` and appends `"fusion_conflict"`.
In particular rule `{金融, 交易提醒, 0.7}` against model `{政务, 政务通知,
0.8}` yields the model label with `needs_review` and confidence 0.68. -/
theorem claim_C4_fuse_weak (r m : LabelOutput) (qr qm : ℚ)
    (hr : r.confidence = RFloat.finite qr)
    (hm : m.confidence = RFloat.finite qm) :
    (qr ≤ qm →
      fuse ⟨some r, some m, false⟩ =
        (if r.industry ≠ m.industry ∨ r.sms_type ≠ m.sms_type then
          { m with needs_review := true,
                   confidence := RFloat.finite (min (qm * (85/100)) (85/100)),
                   reasons := m.reasons ++ ["fusion_conflict"] }
         else m)) ∧
    (qm < qr →
      fuse ⟨some r, some m, false⟩ =
        (if r.industry ≠ m.industry ∨ r.sms_type ≠ m.sms_type then
          { r with needs_review := true,
                   confidence := RFloat.finite (min (qr * (85/100)) (85/100)),
                   reasons := r.reasons ++ ["fusion_conflict"] }
         else r)) ∧
    fuse ⟨some c4RuleLabel, some c4ModelLabel, false⟩ =
      { c4ModelLabel with
        needs_review := true
        confidence := RFloat.finite (68/100)
        reasons := c4ModelLabel.reasons ++ ["fusion_conflict"] } := by
  refine ⟨?_, ?_, c4_concrete⟩
  · intro hle
    by_cases h1 : r.industry = m.industry <;> by_cases h2 : r.sms_type = m.sms_type <;>
      simp [fuse, hr, hm, RFloat.fle_finite, RFloat.fmul_finite,
            RFloat.fmin_finite, h1, h2, hle]
  · intro hgt
    by_cases h1 : r.industry = m.industry <;> by_cases h2 : r.sms_type = m.sms_type <;>
      simp [fuse, hr, hm, RFloat.fle_finite, RFloat.fmul_finite,
            RFloat.fmin_finite, h1, h2, not_le.mpr hgt]

/-- Witness for C4 at the literal scenario-5 labels. -/
theorem claim_C4_fuse_weak_witness :
    c4RuleLabel.confidence = RFloat.finite (7/10) ∧
    c4ModelLabel.confidence = RFloat.finite (8/10) ∧
    fuse ⟨some c4RuleLabel, some c4ModelLabel, false⟩ =
      { c4ModelLabel with
        needs_review := true
        confidence := RFloat.finite (68/100)
        reasons := c4ModelLabel.reasons ++ ["fusion_conflict"] } :=
  ⟨rfl, rfl,
   (claim_C4_fuse_weak c4RuleLabel c4ModelLabel (7/10) (8/10) rfl rfl).2.2⟩

/-- Concrete label with a finite out-of-range confidence for the C9 witness. -/
def c9Label : LabelOutput :=
  { industry := "金融", sms_type := "其他", entities := Entities.empty,
    confidence := RFloat.finite (3/2), needs_review := false,
    reasons := ["x"], signals := [], rules_version := RULES_VERSION,
    model_version := "n/a", schema_version := SCHEMA_VERSION }

/-- Witness for C9 at `c9Label` (confidence 1.5). -/
theorem claim_C9_normalize_frame_witness :
    ((3:ℚ)/2 < 0 →
      (LabelOutput.normalize c9Label).confidence = RFloat.finite 0) ∧
    (1 < (3:ℚ)/2 →
      (LabelOutput.normalize c9Label).confidence = RFloat.finite 1) ∧
    (INDUSTRIES.contains c9Label.industry = true →
      SMS_TYPES.contains c9Label.sms_type = true → c9Label.reasons ≠ [] →
      (LabelOutput.normalize c9Label).needs_review = c9Label.needs_review ∧
      (LabelOutput.normalize c9Label).reasons = c9Label.reasons) :=
  claim_C9_normalize_frame c9Label (3/2) rfl

/-! ## String and regex machinery for `rules/mod.rs`

The seven `Regex` constants of `rules/mod.rs:239-253` are embedded as
dedicated matchers with the leftmost-first (Perl-style backtracking)
semantics of the `regex` crate.  `\d` is modelled as ASCII `0-9`, `\s` as
ASCII whitespace, and the word class behind `\b` as ASCII alphanumerics,
`_`, and CJK Unified Ideographs — the classes occurring in this corpus. -/

def isDigitCh (c : Char) : Bool := c.isDigit

def isSpaceCh (c : Char) : Bool := c = ' ' || c = '\t' || c = '\n' || c = '\r'

def isWordCh (c : Char) : Bool :=
  c.isAlphanum || c = '_' || (0x4E00 ≤ c.toNat && c.toNat ≤ 0x9FFF)

/-- Rust `str::contains(&str)` on code points. -/
def listContainsSub (hay pat : List Char) : Bool :=
  match hay with
  | [] => pat.isEmpty
  | c :: t => pat.isPrefixOf (c :: t) || listContainsSub t pat

def strContainsStr (s pat : String) : Bool := listContainsSub s.data pat.data

/-- Rust `str::contains(char)`. -/
def strContainsChar (s : String) (c : Char) : Bool := s.data.contains c

/-- `contains_any` (`rules/mod.rs:235-237`). -/
def contains_any (s : String) (kws : List String) : Bool :=
  kws.any (fun k => strContainsStr s k)

/-- Strip a literal prefix, returning the remainder. -/
def dropPrefixCh : List Char → List Char → Option (List Char)
  | [], l => some l
  | _ :: _, [] => none
  | p :: ps, c :: cs => if c = p then dropPrefixCh ps cs else none

/-- First alternation branch whose literal matches at this position,
returning the remainder (leftmost-first alternation). -/
def firstTokenRest (kws : List String) (l : List Char) :
    Option (String × List Char) :=
  match kws with
  | [] => none
  | k :: ks =>
      match dropPrefixCh k.data l with
      | some rest => some (k, rest)
      | none => firstTokenRest ks l

/-- Greedy bounded repetition of a character class (e.g. `\D{0,6}`). -/
def takeWhileUpTo (p : Char → Bool) : Nat → List Char → (List Char × List Char)
  | 0, l => ([], l)
  | _ + 1, [] => ([], [])
  | n + 1, c :: t =>
      if p c then
        let r := takeWhileUpTo p n t
        (c :: r.1, r.2)
      else ([], c :: t)

/-- Scan match positions left to right, tracking the previous character
for word boundaries; the first position where the matcher succeeds wins. -/
def scanFirst (f : Option Char → List Char → Option α) :
    Option Char → List Char → Option α
  | prev, [] => f prev []
  | prev, c :: t =>
      match f prev (c :: t) with
      | some r => some r
      | none => scanFirst f (some c) t

/-- Word-boundary test against the previous character (the next character
of every embedded pattern is a word character). -/
def boundaryOk (prev : Option Char) : Bool :=
  match prev with
  | none => true
  | some c => !isWordCh c

/-- Word-boundary test after a match that ends in a word character. -/
def tailBoundary (rest : List Char) : Bool :=
  match rest with
  | [] => true
  | c :: _ => !isWordCh c

/-- `CODE_NEAR_KEYWORD_RE` = `(?:验证码|校验码|动态码|OTP)\D{0,6}(\d{4,8})`
(`rules/mod.rs:242-244`), capture group 1, matched at this position. -/
def codeNearKeywordAt (l : List Char) : Option String :=
  match firstTokenRest ["验证码", "校验码", "动态码", "OTP"] l with
  | none => none
  | some (_, rest) =>
      let skip := takeWhileUpTo (fun c => !isDigitCh c) 6 rest
      let ds := takeWhileUpTo isDigitCh 8 skip.2
      if 4 ≤ ds.1.length then some (String.mk ds.1) else none

def CODE_NEAR_KEYWORD_find (content : String) : Option String :=
  scanFirst (fun _ l => codeNearKeywordAt l) none content.data

/-- `ACCOUNT_SUFFIX_RE` = `(?:尾号|末四位|后四位)\D{0,4}(\d{3,6})`
(`rules/mod.rs:248-250`), capture group 1. -/
def accountSuffixAt (l : List Char) : Option String :=
  match firstTokenRest ["尾号", "末四位", "后四位"] l with
  | none => none
  | some (_, rest) =>
      let skip := takeWhileUpTo (fun c => !isDigitCh c) 4 rest
      let ds := takeWhileUpTo isDigitCh 6 skip.2
      if 3 ≤ ds.1.length then some (String.mk ds.1) else none

def ACCOUNT_SUFFIX_find (content : String) : Option String :=
  scanFirst (fun _ l => accountSuffixAt l) none content.data

/-- `AMOUNT_RE` = `((￥|¥|RMB|CNY)\s*)(\d+(?:[\.,]\d+)?)`
(`rules/mod.rs:245-247`).  Capture group 2 is the *currency alternation*
`(￥|¥|RMB|CNY)` — the digits are group 3 — so the value returned here for
`captures.get(2)` is the currency token of the leftmost match. -/
def amountGroup2At (l : List Char) : Option String :=
  match firstTokenRest ["￥", "¥", "RMB", "CNY"] l with
  | none => none
  | some (tok, rest) =>
      let afterSp := rest.dropWhile isSpaceCh
      match afterSp with
      | c :: _ => if isDigitCh c then some tok else none
      | [] => none

def AMOUNT_group2_find (content : String) : Option String :=
  scanFirst (fun _ l => amountGroup2At l) none content.data

/-- `URL_RE` = `https?://\S+|www\.[^\s]+\.[^\s]+` (`rules/mod.rs:239`),
whole match at this position. -/
def urlAt (l : List Char) : Option String :=
  match dropPrefixCh "https://".data l with
  | some rest =>
      let run := rest.takeWhile (fun c => !isSpaceCh c)
      if run = [] then none else some ("https://" ++ String.mk run)
  | none =>
      match dropPrefixCh "http://".data l with
      | some rest =>
          let run := rest.takeWhile (fun c => !isSpaceCh c)
          if run = [] then none else some ("http://" ++ String.mk run)
      | none =>
          match dropPrefixCh "www.".data l with
          | some rest =>
              let run := rest.takeWhile (fun c => !isSpaceCh c)
              match run with
              | [] => none
              | _ :: t =>
                  if hasDotBeforeEnd t then some ("www." ++ String.mk run)
                  else none
          | none => none
where
  /-- A `.` that still has at least one non-space character after it. -/
  hasDotBeforeEnd : List Char → Bool
    | [] => false
    | c :: t => (c = '.' && !t.isEmpty) || hasDotBeforeEnd t

def URL_find (content : String) : Option String :=
  scanFirst (fun _ l => urlAt l) none content.data

/-- `PHONE_RE` = `\b1\d{10}\b` (`rules/mod.rs:240`). -/
def phoneAt (prev : Option Char) (l : List Char) : Option String :=
  if !boundaryOk prev then none
  else
    match l with
    | '1' :: rest =>
        let ds := takeWhileUpTo isDigitCh 10 rest
        if ds.1.length = 10 && tailBoundary ds.2 then
          some (String.mk ('1' :: ds.1))
        else none
    | _ => none

def PHONE_find (content : String) : Option String :=
  scanFirst phoneAt none content.data

/-- `DIGITS_RE` = `\b\d{4,8}\b` (`rules/mod.rs:241`). -/
def digitsAt (prev : Option Char) (l : List Char) : Option String :=
  if !boundaryOk prev then none
  else
    let ds := takeWhileUpTo isDigitCh 8 l
    if 4 ≤ ds.1.length && tailBoundary ds.2 then some (String.mk ds.1)
    else none

def DIGITS_find (content : String) : Option String :=
  scanFirst digitsAt none content.data

/-- `\d{1,2}` greedy with backtracking: candidates in preference order. -/
def oneOrTwoDigits (l : List Char) : List (List Char × List Char) :=
  match l with
  | c1 :: c2 :: t =>
      if isDigitCh c1 && isDigitCh c2 then [([c1, c2], t), ([c1], c2 :: t)]
      else if isDigitCh c1 then [([c1], c2 :: t)]
      else []
  | [c1] => if isDigitCh c1 then [([c1], [])] else []
  | [] => []

/-- A literal `:` followed by exactly two digits. -/
def colonTwoDigits (l : List Char) : Option (List Char × List Char) :=
  match l with
  | ':' :: c1 :: c2 :: t =>
      if isDigitCh c1 && isDigitCh c2 then some ([':', c1, c2], t) else none
  | _ => none

/-- `(?::\d{2})?` greedy: present before absent. -/
def optSeconds (l : List Char) : List (List Char × List Char) :=
  match colonTwoDigits l with
  | some (s, t) => [(s, t), ([], l)]
  | none => [([], l)]

/-- `\d{1,2}:\d{2}(?::\d{2})?`: candidate (consumed, rest) pairs in
backtracking preference order. -/
def todCandidates (l : List Char) : List (List Char × List Char) :=
  (oneOrTwoDigits l).flatMap (fun hr =>
    match colonTwoDigits hr.2 with
    | some (cm, rest2) =>
        (optSeconds rest2).map (fun s => (hr.1 ++ cm ++ s.1, s.2))
    | none => [])

/-- Membership in the year separator class (dash, slash, dot, 年). -/
def isDateSep1 (c : Char) : Bool := c = '-' || c = '/' || c = '.' || c = '年'

/-- Membership in the month separator class (dash, slash, dot, 月). -/
def isDateSep2 (c : Char) : Bool := c = '-' || c = '/' || c = '.' || c = '月'

/-- First alternate of `TIME_RE` (`rules/mod.rs:251-253`): a word boundary,
four digits, a year separator, one or two digits, a month separator, one or
two digits, an optional 日, an optional `\s*\d{1,2}:\d{2}(?::\d{2})?` time
of day, and a closing word boundary, matched here with explicit
backtracking. -/
def timeAlt1At (prev : Option Char) (l : List Char) : Option String :=
  if !boundaryOk prev then none
  else
    match l with
    | d1 :: d2 :: d3 :: d4 :: s1 :: rest1 =>
        if isDigitCh d1 && isDigitCh d2 && isDigitCh d3 && isDigitCh d4 &&
           isDateSep1 s1 then
          let cands := (oneOrTwoDigits rest1).flatMap (fun mo =>
            match mo.2 with
            | s2 :: rest3 =>
                if isDateSep2 s2 then
                  (oneOrTwoDigits rest3).flatMap (fun dy =>
                    let dayCands : List (List Char × List Char) :=
                      match dy.2 with
                      | '日' :: r5 => [(['日'], r5), ([], dy.2)]
                      | _ => [([], dy.2)]
                    dayCands.flatMap (fun dj =>
                      let sp := dj.2.takeWhile isSpaceCh
                      let afterSp := dj.2.dropWhile isSpaceCh
                      let timeCands :=
                        (todCandidates afterSp).map
                          (fun t => (sp ++ t.1, t.2)) ++ [([], dj.2)]
                      timeCands.map (fun tj =>
                        ([d1, d2, d3, d4, s1] ++ mo.1 ++ [s2] ++ dy.1 ++
                          dj.1 ++ tj.1, tj.2))))
                else []
            | [] => [])
          (cands.find? (fun p => tailBoundary p.2)).map (fun p => String.mk p.1)
        else none
    | _ => none

/-- Second alternate of `TIME_RE`: `\b\d{1,2}:\d{2}(?::\d{2})?\b`. -/
def timeAlt2At (prev : Option Char) (l : List Char) : Option String :=
  if !boundaryOk prev then none
  else
    ((todCandidates l).find? (fun p => tailBoundary p.2)).map
      (fun p => String.mk p.1)

def timeAt (prev : Option Char) (l : List Char) : Option String :=
  match timeAlt1At prev l with
  | some s => some s
  | none => timeAlt2At prev l

def TIME_find (content : String) : Option String :=
  scanFirst timeAt none content.data

/-! ## `rules/mod.rs`: entity extraction and `run_rules` -/

/-- `extract_time_text` (`rules/mod.rs:210-213`). -/
def extract_time_text (content : String) : Option String := TIME_find content

/-- The brand keyword list of `extract_brand` (`rules/mod.rs:165`). -/
def brandKeywords : List String :=
  ["中国银行", "工商银行", "建设银行", "农业银行", "招商银行", "交通银行",
   "邮储银行", "平安银行", "兴业银行", "中信银行", "浦发银行", "光大银行",
   "民生银行", "支付宝", "微信", "京东", "美团", "饿了么", "拼多多", "顺丰",
   "京东物流"]

/-- `extract_brand` (`rules/mod.rs:157-171`). -/
def extract_brand (content : String) (sender : Option String) : Option String :=
  match sender with
  | some s =>
      if s.trim ≠ "" then some s.trim
      else brandKeywords.find? (fun kw => strContainsStr content kw)
  | none => brandKeywords.find? (fun kw => strContainsStr content kw)

/-- `extract_verification_code` (`rules/mod.rs:173-189`). -/
def extract_verification_code (content : String) : Option String :=
  match CODE_NEAR_KEYWORD_find content with
  | some c => some c
  | none =>
      if contains_any content ["验证码", "校验码", "动态码", "OTP"] then
        DIGITS_find content
      else none

/-- Digit list to natural number. -/
def digitsToNat (l : List Char) : Nat :=
  l.foldl (fun a c => a * 10 + (c.toNat - '0'.toNat)) 0

/-- Rust `f64::from_str`, restricted to the plain decimal forms
`[+-]?\d+(\.\d*)?` that the callers can produce (`parse_amount` only ever
receives `AMOUNT_RE` capture-group material); every other input fails,
as it does in Rust for the currency tokens actually passed in. -/
def parseFloatLit (s : String) : Option ℚ :=
  match s.data with
  | [] => none
  | l =>
      let sl := match l with
        | '-' :: t => ((-1 : ℚ), t)
        | '+' :: t => ((1 : ℚ), t)
        | _ => ((1 : ℚ), l)
      let ip := sl.2.span isDigitCh
      if ip.1 = [] then none
      else
        match ip.2 with
        | [] => some (sl.1 * digitsToNat ip.1)
        | '.' :: t =>
            let fp := t.span isDigitCh
            if fp.2 = [] then
              some (sl.1 * (digitsToNat ip.1 +
                (digitsToNat fp.1 : ℚ) / 10 ^ fp.1.length))
            else none
        | _ => none

/-- `parse_amount` (`rules/mod.rs:205-208`). -/
def parse_amount (s : String) : Option ℚ :=
  parseFloatLit (String.mk (s.data.filter (fun c => c ≠ ',' && c ≠ '，')))

/-- `extract_amount` (`rules/mod.rs:191-203`): context-keyword gate, then
`AMOUNT_RE` capture group 2 fed to `parse_amount`. -/
def extract_amount (content : String) (ctx_keywords : List String) : Option ℚ :=
  if !contains_any content ctx_keywords &&
     !strContainsChar content '¥' && !strContainsChar content '￥' then none
  else (AMOUNT_group2_find content).bind parse_amount

/-- `guess_industry_from_sender` (`rules/mod.rs:215-221`).  Lowercasing is
ASCII (the CJK keywords are unaffected by case). -/
def guess_industry_from_sender (sender : Option String) : Option String :=
  match sender with
  | none => none
  | some s =>
      if contains_any s.toLower ["bank", "银行", "证券", "保险"] then some "金融"
      else none

/-- `is_financial_transaction_like` (`rules/mod.rs:223-233`). -/
def is_financial_transaction_like (content : String) (sender : Option String) :
    Bool :=
  contains_any content
    ["银行", "证券", "保险", "信用卡", "贷款", "还款", "入账", "扣款", "消费",
     "交易", "转账", "转入", "转出"] ||
  (match sender with
   | some s => contains_any s ["银行", "证券", "保险"]
   | none => false)

/-- `extract_entities` (`rules/mod.rs:116-155`): entity record plus the
signal map built up alongside it. -/
def extract_entities (content : String) (sender : Option String)
    (signals0 : List (String × JVal)) : Entities × List (String × JVal) :=
  let brand := extract_brand content sender
  let signals := match brand with
    | some b => insertSig signals0 "brand" (JVal.str b)
    | none => signals0
  let url := URL_find content
  let signals := if url.isSome then insertSig signals "has_url" (JVal.bool true)
    else signals
  let phone := PHONE_find content
  let vc := extract_verification_code content
  let signals := if vc.isSome then
    insertSig signals "has_verification_code" (JVal.bool true) else signals
  let amount := extract_amount content
    ["金额", "支付", "扣款", "消费", "入账", "转入", "转出", "还款", "退款"]
  let signals := if amount.isSome then
    insertSig signals "has_amount" (JVal.bool true) else signals
  let balance := extract_amount content ["余额", "可用余额", "账户余额"]
  let acct := ACCOUNT_SUFFIX_find content
  let time := extract_time_text content
  (⟨brand, vc, amount, balance, acct, time, url, phone⟩, signals)

/-- `RuleResult` (`rules/mod.rs:8-14`). -/
structure RuleResult where
  label : Option LabelOutput
  entities : Entities
  signals : List (String × JVal)
  strong_hit : Bool
deriving DecidableEq, Repr

/-- `run_rules` (`rules/mod.rs:16-114`): the four strong rules in source
order, otherwise no label. -/
def run_rules (content : String) (sender : Option String) : RuleResult :=
  let es := extract_entities content sender []
  let entities := es.1
  let signals := es.2
  let vcHit : Option String :=
    match entities.verification_code with
    | some code =>
        if contains_any content ["验证码", "校验码", "动态码", "OTP"] then
          some code
        else none
    | none => none
  match vcHit with
  | some code =>
      let signals := insertSig signals "rule" (JVal.str "verification_code")
      { label := some
          { industry := (guess_industry_from_sender sender).getD "通用",
            sms_type := "验证码", entities := entities,
            confidence := RFloat.finite (98/100), needs_review := false,
            reasons := ["rule: verification_code=" ++ code], signals := signals,
            rules_version := RULES_VERSION, model_version := "n/a",
            schema_version := SCHEMA_VERSION },
        entities := entities, signals := signals, strong_hit := true }
  | none =>
    if contains_any content
        ["取件码", "快递", "驿站", "柜", "丰巢", "菜鸟", "中通", "圆通", "申通",
         "韵达", "顺丰", "京东物流"] then
      let signals := insertSig signals "rule" (JVal.str "logistics_pickup")
      { label := some
          { industry := "通用", sms_type := "物流取件", entities := entities,
            confidence := RFloat.finite (92/100), needs_review := false,
            reasons := ["rule: logistics_pickup"], signals := signals,
            rules_version := RULES_VERSION, model_version := "n/a",
            schema_version := SCHEMA_VERSION },
        entities := entities, signals := signals, strong_hit := true }
    else if contains_any content
        ["公安", "税务", "社保", "公积金", "政府", "政务", "人民法院", "检察院",
         "交警", "医保"] then
      let signals := insertSig signals "rule" (JVal.str "gov_notice")
      { label := some
          { industry := "政务", sms_type := "政务通知", entities := entities,
            confidence := RFloat.finite (93/100), needs_review := false,
            reasons := ["rule: gov_org_keyword"], signals := signals,
            rules_version := RULES_VERSION, model_version := "n/a",
            schema_version := SCHEMA_VERSION },
        entities := entities, signals := signals, strong_hit := true }
    else if is_financial_transaction_like content sender then
      let signals := insertSig signals "rule" (JVal.str "financial_transaction")
      { label := some
          { industry := "金融", sms_type := "交易提醒", entities := entities,
            confidence := RFloat.finite (90/100), needs_review := false,
            reasons := ["rule: financial_transaction"], signals := signals,
            rules_version := RULES_VERSION, model_version := "n/a",
            schema_version := SCHEMA_VERSION },
        entities := entities, signals := signals, strong_hit := true }
    else
      { label := none, entities := entities, signals := signals,
        strong_hit := false }

/-! ## `model/batch.rs`

The coordinator state (`Inner`, `batch.rs:66-71`) and its operations are
embedded as pure state transitions.  `fetch_batch_candidates` is a
collaborator of the executor (`db/dao.rs`), so `start` takes the fetched
candidate list as a parameter.  `process_one` (`batch.rs:333-423`) is
embedded with its effects made explicit: the database is the
`get_message_content` result, the provider is an attempt-indexed
`classify` oracle (`None` models a failed `build_provider`), and the label
upserts, error-log lines and progress-hook deltas are accumulated in the
output.  The 120 ms inter-attempt sleep has no observable effect here. -/

/-- `BatchProgress` (`batch.rs:52-64`). -/
structure BatchProgress where
  running : Bool
  total : Int
  done : Int
  failed : Int
  rule_strong_hits : Int
  model_calls : Int
  model_failures : Int
  current_message_id : Option Int
  started_at_ms : Option Int
  elapsed_ms : Int
deriving DecidableEq, Repr

/-- `Inner` (`batch.rs:66-71`), renamed to avoid the Mathlib `Inner` class. -/
structure BatchInner where
  progress : BatchProgress
  stop : Bool
  failed_ids : List Int
  pending : List Int
deriving DecidableEq, Repr

/-- `BatchManager::new` (`batch.rs:81-104`): the all-idle initial state. -/
def mkInner : BatchInner :=
  { progress :=
      { running := false, total := 0, done := 0, failed := 0,
        rule_strong_hits := 0, model_calls := 0, model_failures := 0,
        current_message_id := none, started_at_ms := none, elapsed_ms := 0 }
    stop := false
    failed_ids := []
    pending := [] }

namespace Batch

/-- `BatchManager::status` (`batch.rs:106-108`). -/
def status (s : BatchInner) : BatchProgress := s.progress

/-- `BatchManager::stop` (`batch.rs:110-112`). -/
def stop (s : BatchInner) : BatchInner := { s with stop := true }

/-- `BatchManager::retry_failed` (`batch.rs:114-123`). -/
def retry_failed (s : BatchInner) : Except String BatchInner :=
  if s.progress.running then Except.error "batch is running"
  else Except.ok
    { s with
      failed_ids := []
      pending := s.failed_ids
      progress := { s.progress with failed := 0 } }

/-- `BatchManager::start` (`batch.rs:125-158`): guard, reset, repopulate the
queue from the fetched candidates, zero the counters, mark running. -/
def start (fetched : List Int) (now : Int) (s : BatchInner) : Except String BatchInner :=
  if s.progress.running then Except.error "batch already running"
  else Except.ok
    { s with
      stop := false
      failed_ids := []
      pending := fetched
      progress :=
        { s.progress with
          total := (fetched.length : Int)
          done := 0
          failed := 0
          rule_strong_hits := 0
          model_calls := 0
          model_failures := 0
          current_message_id := none
          running := true
          started_at_ms := some now
          elapsed_ms := 0 } }

/-- The coordinator feed step (`batch.rs:251-255`): `current_message_id` is
set before each enqueue. -/
def setCurrent (id : Int) (s : BatchInner) : BatchInner :=
  { s with progress := { s.progress with current_message_id := some id } }

/-- `BatchManager::on_one_done` (`batch.rs:312-326`). -/
def on_one_done (id : Int) (r : Except String Unit) (s : BatchInner) : BatchInner :=
  match r with
  | Except.ok _ =>
      { s with progress := { s.progress with done := s.progress.done + 1 } }
  | Except.error e =>
      if e ≠ "stopped" then
        { s with
          progress :=
            { s.progress with
              done := s.progress.done + 1
              failed := s.progress.failed + 1 }
          failed_ids := s.failed_ids ++ [id] }
      else s

/-- The result-drain phase of `run_loop` (`batch.rs:269-297`) folded over
the finite sequence of worker results. -/
def consumeResults (s : BatchInner) (rs : List (Int × Except String Unit)) : BatchInner :=
  rs.foldl (fun a p => on_one_done p.1 p.2 a) s

/-- The only data-dependent exit condition of the drain loop
(`batch.rs:288`): `done >= total`.  The other exit (`batch.rs:274`)
requires the result channel to disconnect, which cannot happen while the
coordinator itself still owns a sender clone (`tx_res` of `batch.rs:170`
is only dropped after the loop). -/
def drainExit (s : BatchInner) : Bool := s.progress.total ≤ s.progress.done

end Batch

/-- `BatchProgressDelta` (`batch.rs:425-430`). -/
inductive BatchProgressDelta where
  | ruleStrongHit
  | modelCall
  | modelFailure
deriving DecidableEq, Repr

/-- The observable effects of one `process_one` call. -/
structure ProcOut where
  result : Except String Unit
  upserts : List (Int × LabelOutput)
  logs : List String
  deltas : List BatchProgressDelta
  classify_calls : Nat

/-- The retry loop of `process_one` (`batch.rs:385-399`): attempts
`i, i+1, …` with the given remaining-attempt fuel, stopping at the first
success; returns (first success, last error, number of `classify` calls). -/
def attemptLoop (oracle : Nat → Except String LabelOutput) (i : Nat) :
    Nat → (Option LabelOutput × Option String × Nat)
  | 0 => (none, none, 0)
  | fuel + 1 =>
      match oracle i with
      | Except.ok v => (some v, none, 1)
      | Except.error e =>
          match fuel with
          | 0 => (none, some e, 1)
          | f + 1 =>
              let r := attemptLoop oracle (i + 1) (f + 1)
              (r.1, r.2.1, r.2.2 + 1)

/-- `process_one` (`batch.rs:333-423`). -/
def process_one (content : Except String String)
    (provider : Option (Nat → Except String LabelOutput))
    (message_id : Int) (max_retries : Nat) : ProcOut :=
  match content with
  | Except.error e =>
      { result := Except.error e, upserts := [], logs := [], deltas := [],
        classify_calls := 0 }
  | Except.ok content =>
      let rule := run_rules content none
      let d0 := if rule.strong_hit then [BatchProgressDelta.ruleStrongHit]
        else []
      if rule.strong_hit then
        let fused := fuse ⟨rule.label, none, rule.strong_hit⟩
        { result := Except.ok (), upserts := [(message_id, fused)],
          logs := [], deltas := d0, classify_calls := 0 }
      else
        let d1 := d0 ++ [BatchProgressDelta.modelCall]
        match provider with
        | none =>
            let e := "provider unavailable"
            { result := Except.error e,
              upserts := [(message_id,
                LabelOutput.error_fallback rule.entities rule.signals e)],
              logs := ["message_id=" ++ toString message_id ++
                " provider unavailable: " ++ e],
              deltas := d1 ++ [BatchProgressDelta.modelFailure],
              classify_calls := 0 }
        | some oracle =>
            let r := attemptLoop oracle 0 (max_retries + 1)
            match r.1 with
            | none =>
                let e := r.2.1.getD "unknown provider error"
                { result := Except.error e,
                  upserts := [(message_id,
                    LabelOutput.error_fallback rule.entities rule.signals e)],
                  logs := ["message_id=" ++ toString message_id ++
                    " classify failed: " ++ e],
                  deltas := d1 ++ [BatchProgressDelta.modelFailure],
                  classify_calls := r.2.2 }
            | some m =>
                let fused := fuse ⟨rule.label, some m, rule.strong_hit⟩
                { result := Except.ok (), upserts := [(message_id, fused)],
                  logs := [], deltas := d1, classify_calls := r.2.2 }

/-! ## Claims about the rule engine and the batch executor -/

/-- The literal content of end-to-end scenario 4 of the spec. -/
def c2content : String := "您尾号1234的信用卡本期账单已出，最低还款200元。"

/-- Claim C2 counterexample: on scenario 4's content `run_rules` does fire
the financial strong hit, but the extracted amount is `none`, not 200.0 —
`AMOUNT_RE` demands a `￥`/`¥`/`RMB`/`CNY` prefix that the content lacks
(and its capture group 2 is the currency token, not the digits), so the
claimed conjunction is false. -/
theorem claim_C2_counterexample :
    ¬ ((run_rules c2content none).label.map (fun l => l.industry) =
        some "金融" ∧
      (run_rules c2content none).label.map (fun l => l.sms_type) =
        some "交易提醒" ∧
      (run_rules c2content none).label.map (fun l => l.confidence) =
        some (RFloat.finite (90/100)) ∧
      (run_rules c2content none).entities.account_suffix = some "1234" ∧
      (run_rules c2content none).entities.amount = some (200 : ℚ)) := by
  intro h
  have ha := h.2.2.2.2
  rw [show (run_rules c2content none).entities.amount = none from rfl] at ha
  exact Option.noConfusion ha

/-- Claim C2 (amended): scenario 4's content fires the financial strong hit
with industry 金融, type 交易提醒, confidence 0.90 and account suffix
"1234", but the amount entity stays `none`: the content has no currency
prefix, and `extract_amount` reads `AMOUNT_RE` capture group 2, the
currency token, which never parses as a number. -/
theorem claim_C2_amended :
    (run_rules c2content none).strong_hit = true ∧
    (run_rules c2content none).label.map (fun l => l.industry) =
      some "金融" ∧
    (run_rules c2content none).label.map (fun l => l.sms_type) =
      some "交易提醒" ∧
    (run_rules c2content none).label.map (fun l => l.confidence) =
      some (RFloat.finite (90/100)) ∧
    (run_rules c2content none).label.map (fun l => l.needs_review) =
      some false ∧
    (run_rules c2content none).entities.account_suffix = some "1234" ∧
    (run_rules c2content none).entities.amount = none :=
  ⟨rfl, rfl, rfl, rfl, rfl, rfl, rfl⟩

/-- Does this worker result denote a success? -/
def isOkRes (p : Int × Except String Unit) : Bool :=
  match p.2 with
  | Except.ok _ => true
  | Except.error _ => false

/-- Does this worker result denote a counted (non-"stopped") failure? -/
def isFailRes (p : Int × Except String Unit) : Bool :=
  match p.2 with
  | Except.ok _ => false
  | Except.error e => decide (e ≠ "stopped")

/-- `on_one_done` on a success touches only `done` (`batch.rs:315-317`). -/
theorem ood_ok_proj (id : Int) (u : Unit) (s : BatchInner) :
    (Batch.on_one_done id (Except.ok u) s).progress.done =
      s.progress.done + 1 ∧
    (Batch.on_one_done id (Except.ok u) s).progress.failed =
      s.progress.failed ∧
    (Batch.on_one_done id (Except.ok u) s).failed_ids = s.failed_ids ∧
    (Batch.on_one_done id (Except.ok u) s).progress.total =
      s.progress.total ∧
    (Batch.on_one_done id (Except.ok u) s).progress.running =
      s.progress.running ∧
    (Batch.on_one_done id (Except.ok u) s).progress.current_message_id =
      s.progress.current_message_id ∧
    (Batch.on_one_done id (Except.ok u) s).pending = s.pending := by
  simp [Batch.on_one_done]

/-- `on_one_done` on a non-"stopped" error bumps `done` and `failed` and
records the id (`batch.rs:318-324`). -/
theorem ood_err_proj (id : Int) (e : String) (s : BatchInner)
    (he : e ≠ "stopped") :
    (Batch.on_one_done id (Except.error e) s).progress.done =
      s.progress.done + 1 ∧
    (Batch.on_one_done id (Except.error e) s).progress.failed =
      s.progress.failed + 1 ∧
    (Batch.on_one_done id (Except.error e) s).failed_ids =
      s.failed_ids ++ [id] ∧
    (Batch.on_one_done id (Except.error e) s).progress.total =
      s.progress.total ∧
    (Batch.on_one_done id (Except.error e) s).progress.running =
      s.progress.running ∧
    (Batch.on_one_done id (Except.error e) s).progress.current_message_id =
      s.progress.current_message_id ∧
    (Batch.on_one_done id (Except.error e) s).pending = s.pending := by
  simp [Batch.on_one_done, he]

/-- A "stopped" result is a no-op for the coordinator (`batch.rs:319`). -/
theorem ood_stopped (id : Int) (s : BatchInner) :
    Batch.on_one_done id (Except.error "stopped") s = s := by
  simp [Batch.on_one_done]

/-- Folding `on_one_done` over any result sequence: `done` grows by the
successes plus the non-"stopped" failures, `failed` by the latter, the
failed-id list extends by exactly those ids, and everything else is
untouched. -/
theorem consume_spec (rs : List (Int × Except String Unit)) (s : BatchInner) :
    (Batch.consumeResults s rs).progress.done =
      s.progress.done + (rs.filter isOkRes).length +
        (rs.filter isFailRes).length ∧
    (Batch.consumeResults s rs).progress.failed =
      s.progress.failed + (rs.filter isFailRes).length ∧
    (Batch.consumeResults s rs).failed_ids =
      s.failed_ids ++ (rs.filter isFailRes).map Prod.fst ∧
    (Batch.consumeResults s rs).progress.total = s.progress.total ∧
    (Batch.consumeResults s rs).progress.running = s.progress.running ∧
    (Batch.consumeResults s rs).progress.current_message_id =
      s.progress.current_message_id ∧
    (Batch.consumeResults s rs).pending = s.pending := by
  induction rs generalizing s with
  | nil => simp [Batch.consumeResults]
  | cons p t ih =>
      obtain ⟨id, r⟩ := p
      have step : Batch.consumeResults s ((id, r) :: t) =
          Batch.consumeResults (Batch.on_one_done id r s) t := rfl
      rw [step]
      rcases r with e | u
      · by_cases he : e = "stopped"
        · subst he
          rw [ood_stopped]
          simpa [isOkRes, isFailRes] using ih s
        · obtain ⟨ih1, ih2, ih3, ih4, ih5, ih6, ih7⟩ :=
            ih (Batch.on_one_done id (Except.error e) s)
          obtain ⟨p1, p2, p3, p4, p5, p6, p7⟩ := ood_err_proj id e s he
          rw [ih1, ih2, ih3, ih4, ih5, ih6, ih7, p1, p2, p3, p4, p5, p6, p7]
          simp [isOkRes, isFailRes, he]
          omega
      · obtain ⟨ih1, ih2, ih3, ih4, ih5, ih6, ih7⟩ :=
          ih (Batch.on_one_done id (Except.ok u) s)
        obtain ⟨p1, p2, p3, p4, p5, p6, p7⟩ := ood_ok_proj id u s
        rw [ih1, ih2, ih3, ih4, ih5, ih6, ih7, p1, p2, p3, p4, p5, p6, p7]
        simp [isOkRes, isFailRes]
        omega

/-- Claim C5: an ok result increments `done` only; a non-"stopped" error
increments `done` and `failed` and records the id; a "stopped" error
changes nothing; hence over a whole batch `done` equals successes plus
non-"stopped" failures and `failed_ids` is exactly the ids that ended in a
non-"stopped" error. -/
theorem claim_C5_result_accounting (s : BatchInner)
    (rs : List (Int × Except String Unit)) :
    (∀ id, Batch.on_one_done id (Except.ok ()) s =
      { s with progress := { s.progress with done := s.progress.done + 1 } }) ∧
    (∀ id e, Batch.on_one_done id (Except.error e) s =
      (if e = "stopped" then s else
        { s with
          progress :=
            { s.progress with
              done := s.progress.done + 1
              failed := s.progress.failed + 1 }
          failed_ids := s.failed_ids ++ [id] })) ∧
    (Batch.consumeResults s rs).progress.done =
      s.progress.done + (rs.filter isOkRes).length +
        (rs.filter isFailRes).length ∧
    (Batch.consumeResults s rs).progress.failed =
      s.progress.failed + (rs.filter isFailRes).length ∧
    (Batch.consumeResults s rs).failed_ids =
      s.failed_ids ++ (rs.filter isFailRes).map Prod.fst := by
  obtain ⟨h1, h2, h3, _⟩ := consume_spec rs s
  refine ⟨fun id => rfl, fun id e => ?_, h1, h2, h3⟩
  by_cases he : e = "stopped" <;> simp [Batch.on_one_done, he]

/-- On any non-running state, `start` succeeds and its pending queue is
exactly the fetched candidate list, independent of the previous queue. -/
theorem claim_C10_aux (s : BatchInner) (fetched : List Int) (now : Int)
    (h : s.progress.running = false) :
    ∃ s2, Batch.start fetched now s = Except.ok s2 ∧ s2.pending = fetched := by
  unfold Batch.start
  rw [if_neg (by simp [h])]
  exact ⟨_, rfl, rfl⟩

/-- Claim C10: `start` unconditionally clears and repopulates the pending
queue from the fetched candidates, so ids moved into `pending` by
`retry_failed` are discarded by the next `start` and survive only if the
fetch selects them again; no other manager operation consumes `pending`. -/
theorem claim_C10_start_repopulates (s : BatchInner) (fetched : List Int)
    (now : Int) (h : s.progress.running = false) :
    (∃ s2, Batch.start fetched now s = Except.ok s2 ∧ s2.pending = fetched) ∧
    (∃ s1 s2, Batch.retry_failed s = Except.ok s1 ∧
      s1.pending = s.failed_ids ∧
      Batch.start fetched now s1 = Except.ok s2 ∧ s2.pending = fetched ∧
      (∀ id, id ∈ s2.pending ↔ id ∈ fetched)) ∧
    (Batch.stop s).pending = s.pending ∧
    (∀ id r, (Batch.on_one_done id r s).pending = s.pending) := by
  refine ⟨claim_C10_aux s fetched now h, ?_, rfl, ?_⟩
  · have hs1 : Batch.retry_failed s = Except.ok
        { s with
          failed_ids := []
          pending := s.failed_ids
          progress := { s.progress with failed := 0 } } := by
      unfold Batch.retry_failed
      rw [if_neg (by simp [h])]
    have hs2 := claim_C10_aux
      { s with
        failed_ids := []
        pending := s.failed_ids
        progress := { s.progress with failed := 0 } } fetched now (by simpa using h)
    obtain ⟨s2, hs2, hp2⟩ := hs2
    exact ⟨_, s2, hs1, rfl, hs2, hp2, fun id => by rw [hp2]⟩
  · intro id r
    rcases r with e | u
    · by_cases he : e = "stopped" <;> simp [Batch.on_one_done, he]
    · simp [Batch.on_one_done]

/-- Witness for C10 on an idle manager whose failed list holds id 7. -/
theorem claim_C10_start_repopulates_witness :
    (∃ s2, Batch.start [3, 4] 0 { mkInner with failed_ids := [7] } =
      Except.ok s2 ∧ s2.pending = [3, 4]) ∧
    (∃ s1 s2, Batch.retry_failed { mkInner with failed_ids := [7] } =
      Except.ok s1 ∧
      s1.pending = ({ mkInner with failed_ids := [7] } : BatchInner).failed_ids ∧
      Batch.start [3, 4] 0 s1 = Except.ok s2 ∧ s2.pending = [3, 4] ∧
      (∀ id, id ∈ s2.pending ↔ id ∈ ([3, 4] : List Int))) ∧
    (Batch.stop { mkInner with failed_ids := [7] }).pending =
      ({ mkInner with failed_ids := [7] } : BatchInner).pending ∧
    (∀ id r, (Batch.on_one_done id r { mkInner with failed_ids := [7] }).pending =
      ({ mkInner with failed_ids := [7] } : BatchInner).pending) :=
  claim_C10_start_repopulates { mkInner with failed_ids := [7] } [3, 4] 0 rfl

/-- Claim C7: on a strong rule hit `process_one` performs no `classify`
call and signals no `ModelCall` delta. -/
theorem claim_C7_strong_hit_no_model (content : String)
    (provider : Option (Nat → Except String LabelOutput)) (id : Int)
    (mr : Nat) (h : (run_rules content none).strong_hit = true) :
    (process_one (Except.ok content) provider id mr).classify_calls = 0 ∧
    BatchProgressDelta.modelCall ∉
      (process_one (Except.ok content) provider id mr).deltas := by
  constructor <;> simp [process_one, h]

/-- Witness for C7 on the strong-hit content "验证码1234". -/
theorem claim_C7_strong_hit_no_model_witness :
    (run_rules "验证码1234" none).strong_hit = true ∧
    (process_one (Except.ok "验证码1234") none 1 0).classify_calls = 0 ∧
    BatchProgressDelta.modelCall ∉
      (process_one (Except.ok "验证码1234") none 1 0).deltas :=
  ⟨rfl, (claim_C7_strong_hit_no_model "验证码1234" none 1 0 rfl).1,
    (claim_C7_strong_hit_no_model "验证码1234" none 1 0 rfl).2⟩

/-- The retry loop on a failing first attempt with remaining fuel recurses
on the next attempt index, counting one more `classify` call. -/
theorem attemptLoop_step (oracle : Nat → Except String LabelOutput)
    (i f : Nat) (e : String) (he : oracle i = Except.error e) :
    attemptLoop oracle i (f + 1 + 1) =
      ((attemptLoop oracle (i + 1) (f + 1)).1,
       (attemptLoop oracle (i + 1) (f + 1)).2.1,
       (attemptLoop oracle (i + 1) (f + 1)).2.2 + 1) := by
  conv_lhs => rw [attemptLoop]
  rw [he]

/-- The retry loop with one unit of fuel and a failing attempt records that
error. -/
theorem attemptLoop_base (oracle : Nat → Except String LabelOutput)
    (i : Nat) (e : String) (he : oracle i = Except.error e) :
    attemptLoop oracle i 1 = (none, some e, 1) := by
  conv_lhs => rw [attemptLoop]
  rw [he]

/-- When every attempt the fuel allows fails, the retry loop ends with no
label and the last error recorded. -/
theorem attemptLoop_all_fail (oracle : Nat → Except String LabelOutput) :
    ∀ (n k : Nat), 0 < n →
    (∀ i, i < n → ∃ e, oracle (k + i) = Except.error e) →
    (attemptLoop oracle k n).1 = none ∧
    ∃ e, (attemptLoop oracle k n).2.1 = some e := by
  intro n
  induction n with
  | zero => intro k h0 _; omega
  | succ m ih =>
      intro k _ hall
      obtain ⟨e0, he0⟩ := hall 0 (by omega)
      have he0' : oracle k = Except.error e0 := by
        rwa [Nat.add_zero] at he0
      match m with
      | 0 => rw [attemptLoop_base oracle k e0 he0']; exact ⟨rfl, e0, rfl⟩
      | m' + 1 =>
          have hshift : ∀ i, i < m' + 1 →
              ∃ e, oracle (k + 1 + i) = Except.error e := by
            intro i hi
            obtain ⟨e, he⟩ := hall (i + 1) (by omega)
            exact ⟨e, by rwa [show k + (i + 1) = k + 1 + i by omega] at he⟩
          obtain ⟨ih1, e, ih2⟩ := ih (k + 1) (by omega) hshift
          rw [attemptLoop_step oracle k m' e0 he0']
          exact ⟨ih1, e, ih2⟩

/-- Claim C6: with no rule strong hit, if the provider is unavailable or
all `1 + max_retries` classify attempts fail, `process_one` upserts the
`error_fallback` label (industry/type 其他, confidence 0.25, needs_review,
single reason `model_error:{err}`, model_version "error") and returns the
error, so the message is decided and the id is recorded as failed. -/
theorem claim_C6_error_fallback (content : String) (id : Int) (mr : Nat)
    (provider : Option (Nat → Except String LabelOutput))
    (hweak : (run_rules content none).strong_hit = false)
    (hfail : provider = none ∨
      ∃ f, provider = some f ∧ ∀ i, i ≤ mr → ∃ e, f i = Except.error e) :
    ∃ err,
      (process_one (Except.ok content) provider id mr).result =
        Except.error err ∧
      (process_one (Except.ok content) provider id mr).upserts =
        [(id, LabelOutput.error_fallback (run_rules content none).entities
          (run_rules content none).signals err)] ∧
      (LabelOutput.error_fallback (run_rules content none).entities
        (run_rules content none).signals err).industry = "其他" ∧
      (LabelOutput.error_fallback (run_rules content none).entities
        (run_rules content none).signals err).sms_type = "其他" ∧
      (LabelOutput.error_fallback (run_rules content none).entities
        (run_rules content none).signals err).confidence =
          RFloat.finite (1/4) ∧
      (LabelOutput.error_fallback (run_rules content none).entities
        (run_rules content none).signals err).needs_review = true ∧
      (LabelOutput.error_fallback (run_rules content none).entities
        (run_rules content none).signals err).reasons =
          ["model_error:" ++ err] ∧
      (LabelOutput.error_fallback (run_rules content none).entities
        (run_rules content none).signals err).model_version = "error" := by
  rcases hfail with hp | ⟨f, hp, hall⟩ <;> subst hp
  · exact ⟨"provider unavailable", by simp [process_one, hweak],
      by simp [process_one, hweak], rfl, rfl, rfl, rfl, rfl, rfl⟩
  · obtain ⟨h1, e, h2⟩ := attemptLoop_all_fail f (mr + 1) 0 (by omega)
      (fun i hi => by
        obtain ⟨e, he⟩ := hall i (by omega)
        exact ⟨e, by rwa [Nat.zero_add]⟩)
    exact ⟨e, by simp [process_one, hweak, h1, h2],
      by simp [process_one, hweak, h1, h2], rfl, rfl, rfl, rfl, rfl, rfl⟩

/-- Witness for C6: weak content "hello" with an unavailable provider. -/
theorem claim_C6_error_fallback_witness :
    (run_rules "hello" none).strong_hit = false ∧
    ∃ err,
      (process_one (Except.ok "hello") none 1 0).result =
        Except.error err ∧
      (process_one (Except.ok "hello") none 1 0).upserts =
        [(1, LabelOutput.error_fallback (run_rules "hello" none).entities
          (run_rules "hello" none).signals err)] ∧
      (LabelOutput.error_fallback (run_rules "hello" none).entities
        (run_rules "hello" none).signals err).industry = "其他" ∧
      (LabelOutput.error_fallback (run_rules "hello" none).entities
        (run_rules "hello" none).signals err).sms_type = "其他" ∧
      (LabelOutput.error_fallback (run_rules "hello" none).entities
        (run_rules "hello" none).signals err).confidence =
          RFloat.finite (1/4) ∧
      (LabelOutput.error_fallback (run_rules "hello" none).entities
        (run_rules "hello" none).signals err).needs_review = true ∧
      (LabelOutput.error_fallback (run_rules "hello" none).entities
        (run_rules "hello" none).signals err).reasons =
          ["model_error:" ++ err] ∧
      (LabelOutput.error_fallback (run_rules "hello" none).entities
        (run_rules "hello" none).signals err).model_version = "error" :=
  ⟨rfl, claim_C6_error_fallback "hello" 1 0 none rfl (Or.inl rfl)⟩

/-- Claim C1 (code bug): after `start` with one candidate, a worker that
observes `stop` reports `(id, "stopped")`, which `on_one_done` ignores, so
`done` stays 0 < total and the drain loop's only data exit `done >= total`
(`batch.rs:288`) never fires; the channel-disconnect exit (`batch.rs:274`)
cannot fire either because the coordinator's own `tx_res` clone
(`batch.rs:170`) lives until after the loop.  The final block
(`batch.rs:299-309`) that would set `running = false` and clear
`current_message_id` is therefore unreachable: the claimed termination
does not happen. -/
theorem claim_C1_stop_never_terminates :
    ∃ s1, Batch.start [5] 0 mkInner = Except.ok s1 ∧
      s1.progress.running = true ∧
      s1.progress.total = 1 ∧
      Batch.drainExit (Batch.setCurrent 5 s1) = false ∧
      Batch.consumeResults (Batch.setCurrent 5 s1)
        [(5, Except.error "stopped")] = Batch.setCurrent 5 s1 ∧
      Batch.drainExit (Batch.consumeResults (Batch.setCurrent 5 s1)
        [(5, Except.error "stopped")]) = false ∧
      (Batch.consumeResults (Batch.setCurrent 5 s1)
        [(5, Except.error "stopped")]).progress.running = true ∧
      (Batch.consumeResults (Batch.setCurrent 5 s1)
        [(5, Except.error "stopped")]).progress.current_message_id =
        some 5 := by
  refine ⟨_, rfl, rfl, rfl, by decide, ?_, by decide, by decide, by decide⟩
  exact ood_stopped 5 _
